import Mathlib

/-!
Verification of the Bisa-Me marketplace listing editor.

The development shallowly embeds the repository's edit-modal subsystem:

* the submit flow (`handleSubmit` in the `EditProductModal` component),
  including the JavaScript truthiness coercions it performs when the
  update request body is assembled;
* the `jsonFetcher` of `use-fetch-product-by-id.ts` together with the
  hook's fetch-trigger logic (the SWR key computation and the explicit
  refresh effect);
* the render dispatch of the modal (hidden / loading / error panel /
  editable form);
* the Image Manager (`use-image-handler`) and the Form State Controller
  (`use-product-form`), whose hook sources are not part of the source
  tree; these are modelled from the specification and marked as such.

JavaScript values are modelled with explicit `Option`s: `none` plays the
role of `undefined`/`null`, and the `||` / `??` operators are embedded as
explicit functions on `Option String` that treat the empty string as
falsy, exactly as JavaScript does.
-/

namespace BisaMe

/-! ## JavaScript string coercions used by the modal -/

/-- JavaScript `a || b` on string-or-undefined values: the left operand is
kept when it is truthy (present and non-empty), otherwise the right
operand is the result. -/
def jsOr : Option String → Option String → Option String
  | some s, b => if s = "" then b else some s
  | none, b => b

/-- JavaScript `x || ""`: an absent or empty string becomes `""`. -/
def orEmpty (o : Option String) : String :=
  o.getD ""

/-- JavaScript `x || null`: an absent or empty string becomes `null`
(modelled as `none`). -/
def jsOrNull : Option String → Option String
  | some s => if s = "" then none else some s
  | none => none

/-- JavaScript `Number(x)` restricted to the integral inputs the form can
produce; `none` stands for `NaN` (absent field or unparsable text). -/
def jsNumber : Option String → Option Int
  | some s => s.toInt?
  | none => none

/-! ## Form data (the `ProductEditData` shape of the modal) -/

/-- The value held in the `negotiable` form field: the source declares it
as `boolean | string` and it may also be absent. -/
inductive NegotiableVal where
  | boolv (b : Bool)
  | strv (s : String)
  | undef
  deriving DecidableEq, Repr

/-- The editable field set of the modal (`ProductEditData` in the source):
every field is optional, `price` is the raw text of the number input,
`negotiable` is boolean-or-string. -/
structure FormData where
  title : Option String
  name : Option String
  description : Option String
  price : Option String
  location : Option String
  category : Option String
  subCategory : Option String
  childCategory : Option String
  contactNumber : Option String
  negotiable : NegotiableVal
  attributes : Option (List (String × String))
  deriving DecidableEq, Repr

/-! ## Image Manager state

The `use-image-handler` hook is not part of the source tree; the entry
type and the operations below are modelled from the specification
(`section 4.3`): an entry is a tagged union of an existing remote
reference and a pending local file, carries an explicit position, an
upload status and (once known) a hosted URL. -/

/-- Upload lifecycle of an image entry. -/
inductive ImageStatus where
  | pending
  | uploading
  | uploaded
  | failed
  deriving DecidableEq, Repr

/-- A locally selected file: name and size in megabytes. -/
structure LocalFile where
  fname : String
  sizeMB : Nat
  deriving DecidableEq, Repr

/-- Tagged union of the two image entry kinds. -/
inductive EntrySource where
  | existing (url : String)
  | localFile (f : LocalFile)
  deriving DecidableEq, Repr

/-- One image entry of the Image Manager. -/
structure ImageEntry where
  eid : Nat
  position : Nat
  source : EntrySource
  status : ImageStatus
  url : Option String
  deriving DecidableEq, Repr

/-- Modelled from the spec: `getImageUrls` is a pure read of the current
entry URLs in position order (the manager keeps its list in position
order); entries without a recorded URL contribute nothing. -/
def getImageUrls (l : List ImageEntry) : List String :=
  l.filterMap (fun e => e.url)

/-! ## The update request body (`UpdateProductProps`) -/

/-- One image reference of the update request: `{ imageUrl, id }`. -/
structure ImageRef where
  imageUrl : String
  iid : String
  deriving DecidableEq, Repr

/-- The request body assembled by `handleSubmit`. -/
structure UpdateProductProps where
  pid : String
  title : Option String
  description : Option String
  price : Option Int
  location : Option String
  category : String
  subCategory : String
  childCategory : Option String
  contactNumber : String
  images : List ImageRef
  isPromoted : Bool
  negotiable : Bool
  attributes : List (String × String)
  deriving DecidableEq, Repr

/-- `imageUrls.map((url, index) => ({ imageUrl: url, id: "image-" + index }))`. -/
def mkImageRefs (urls : List String) : List ImageRef :=
  urls.enum.map (fun p => { imageUrl := p.2, iid := "image-" ++ toString p.1 })

/-- The `negotiable` coercion of `handleSubmit`:
`typeof v === "boolean" ? v : v === "true"`. -/
def coerceNegotiable : NegotiableVal → Bool
  | .boolv b => b
  | .strv s => s = "true"
  | .undef => false

/-- The request body constructed inside `handleSubmit` (lines 117-138 of
the modal source), coercion for coercion. -/
def buildReqBody (pid : String) (fd : FormData) (imageUrls : List String) :
    UpdateProductProps where
  pid := pid
  title := jsOr fd.title fd.name
  description := fd.description
  price := jsNumber fd.price
  location := fd.location
  category := orEmpty fd.category
  subCategory := orEmpty fd.subCategory
  childCategory := jsOrNull fd.childCategory
  contactNumber := orEmpty fd.contactNumber
  images := mkImageRefs imageUrls
  isPromoted := false
  negotiable := coerceNegotiable fd.negotiable
  attributes := fd.attributes.getD []

/-! ## The submit flow -/

/-- The externally observable actions a run of `handleSubmit` performs, in
order. `uploadCompleted` would mark an Image Manager upload phase
finishing inside the submit flow; `requestSent` is the `onUpdate` call;
`cancelScheduled` is the `setTimeout` that later fires `onCancel`. -/
inductive SubmitEvent where
  | uploadCompleted
  | requestSent (req : UpdateProductProps)
  | successToastShown
  | errorToastShown
  | cancelScheduled
  deriving DecidableEq, Repr

/-- Whether an event belongs to the upload phase. -/
def isUploadEvent : SubmitEvent → Bool
  | .uploadCompleted => true
  | _ => false

/-- The component state `handleSubmit` reads and writes. -/
structure ModalState where
  isSubmitting : Bool
  showSuccess : Bool
  formData : Option FormData
  images : List ImageEntry
  deriving DecidableEq, Repr

/-- The submit flow of the modal (`handleSubmit`): bail out when the form
is absent or a submission is in flight; otherwise read the current image
URLs, assemble the request body, send it, and on success show the success
state and schedule the close callback, on rejection show the error toast;
`isSubmitting` is reset in the `finally` block on both paths. The outcome
of the awaited `onUpdate` call is an input. -/
def handleSubmit (pid : String) (st : ModalState)
    (updateOutcome : Except Unit Unit) : ModalState × List SubmitEvent :=
  match st.formData with
  | none => (st, [])
  | some fd =>
    if st.isSubmitting then (st, [])
    else
      let req := buildReqBody pid fd (getImageUrls st.images)
      match updateOutcome with
      | .ok _ =>
        ({ st with showSuccess := true, isSubmitting := false },
          [.requestSent req, .successToastShown, .cancelScheduled])
      | .error _ =>
        ({ st with isSubmitting := false },
          [.requestSent req, .errorToastShown])

/-- Checks that every `requestSent` event of a trace is preceded by an
`uploadCompleted` event (the ordering the specification asserts for the
submit flow); `seen` records whether an upload has completed so far. -/
def uploadBeforeRequest (seen : Bool) : List SubmitEvent → Bool
  | [] => true
  | .uploadCompleted :: es => uploadBeforeRequest true es
  | .requestSent _ :: es => seen && uploadBeforeRequest seen es
  | _ :: es => uploadBeforeRequest seen es

/-- A concrete form value used by witnesses and counterexamples. -/
def sampleForm : FormData where
  title := some "Lamp"
  name := none
  description := some "desk lamp"
  price := some "20"
  location := some "Accra"
  category := some "home"
  subCategory := some "lighting"
  childCategory := none
  contactNumber := some "020"
  negotiable := .strv "true"
  attributes := none

/-- A pending local image entry that has no hosted URL yet. -/
def samplePendingEntry : ImageEntry where
  eid := 7
  position := 1
  source := .localFile { fname := "b.jpg", sizeMB := 1 }
  status := .pending
  url := none

/-- An already uploaded (existing) image entry. -/
def sampleExistingEntry : ImageEntry where
  eid := 3
  position := 0
  source := .existing "a.jpg"
  status := .uploaded
  url := some "a.jpg"

/-- A ready-to-submit modal state holding one existing and one pending
image. -/
def sampleReadyState : ModalState where
  isSubmitting := false
  showSuccess := false
  formData := some sampleForm
  images := [sampleExistingEntry, samplePendingEntry]

/-! ## Image Manager operations

Modelled from the spec (`section 4.3`); the `use-image-handler` hook
itself is not in the source tree. The manager keeps its entries in
position order and renumbers after every structural change, so that the
position attribute is always the zero-based index. -/

/-- Maximum number of image entries (fixed constant of the modal). -/
def maxImages : Nat := 10

/-- Maximum accepted file size in megabytes (fixed constant). -/
def maxFileSizeMB : Nat := 5

/-- Rewrites the position of each entry to its index, starting at `i`. -/
def renumberFrom (i : Nat) : List ImageEntry → List ImageEntry
  | [] => []
  | e :: es => { e with position := i } :: renumberFrom (i + 1) es

/-- Renumbers a list of entries with zero-based positions. -/
def renumber (l : List ImageEntry) : List ImageEntry :=
  renumberFrom 0 l

/-- An entry id not yet used by any entry of the list. -/
def freshId (l : List ImageEntry) : Nat :=
  l.foldr (fun e m => max (e.eid + 1) m) 0

/-- Modelled from the spec: `addFiles` rejects (reporting an error, not
throwing) a file that exceeds `maxFileSizeMB` or that would push the
entry count past `maxImages`; an accepted file becomes a pending entry
appended at the end. This is the one-file step. -/
def addOneFile (l : List ImageEntry) (f : LocalFile) : List ImageEntry :=
  if maxFileSizeMB < f.sizeMB ∨ maxImages < l.length + 1 then l
  else l ++ [{ eid := freshId l, position := l.length,
               source := .localFile f, status := .pending, url := none }]

/-- Modelled from the spec: `addFiles` processes the selected files in
order, accepting or rejecting each one. -/
def addFiles (files : List LocalFile) (l : List ImageEntry) : List ImageEntry :=
  files.foldl addOneFile l

/-- Modelled from the spec: `remove` deletes the entry with the given id
and renumbers; the entry that ends up first automatically becomes main
(main is derived as position 0). -/
def removeEntry (eid : Nat) (l : List ImageEntry) : List ImageEntry :=
  renumber (l.eraseP (fun e => e.eid == eid))

/-- Modelled from the spec: `setMain` moves the designated entry to
position 0, shifting the others back by one and preserving their
relative order. -/
def setMain (eid : Nat) (l : List ImageEntry) : List ImageEntry :=
  match l.find? (fun e => e.eid == eid) with
  | none => l
  | some e => renumber (e :: l.eraseP (fun x => x.eid == eid))

/-- Modelled from the spec: drag-and-drop `reorder` moves one entry to a
new position (clamped to the list), shifting the entries in between by
one slot. -/
def reorderEntry (srcId target : Nat) (l : List ImageEntry) : List ImageEntry :=
  match l.find? (fun e => e.eid == srcId) with
  | none => l
  | some e =>
    renumber (List.insertIdx (min target (l.length - 1)) e
      (l.eraseP (fun x => x.eid == srcId)))

/-- One user-visible Image Manager operation. -/
inductive ImageOp where
  | addFiles (files : List LocalFile)
  | remove (eid : Nat)
  | setMain (eid : Nat)
  | reorder (srcId : Nat) (target : Nat)
  deriving Repr

/-- Applies one operation to the entry list. -/
def applyOp : ImageOp → List ImageEntry → List ImageEntry
  | .addFiles files, l => addFiles files l
  | .remove eid, l => removeEntry eid l
  | .setMain eid, l => setMain eid l
  | .reorder srcId target, l => reorderEntry srcId target l

/-- Applies a sequence of operations, oldest first. -/
def applyOps (ops : List ImageOp) (l : List ImageEntry) : List ImageEntry :=
  ops.foldl (fun st op => applyOp op st) l

/-- The Image Manager list invariant: positions are exactly the zero-based
indices (hence unique and gap-free) and the list never exceeds
`maxImages`. -/
def ValidImages (l : List ImageEntry) : Prop :=
  l.map (fun e => e.position) = List.range l.length ∧ l.length ≤ maxImages

/-! ## The upload phase (`beginUpload`)

Modelled from the spec (`section 4.3`): for every pending entry the
external upload collaborator is invoked; the phase resolves only once all
pending entries have succeeded, and on any single failure the entire
batch is reported as failed and no URLs are returned. The collaborator is
abstracted as a function from the local file to `Option String` (`none`
means that file's upload fails). -/

/-- The upload attempt for one entry: an existing entry already has its
hosted URL; a local file goes through the collaborator. -/
def attemptUpload (up : LocalFile → Option String) (e : ImageEntry) :
    Option String :=
  match e.source with
  | .existing u => some u
  | .localFile f => up f

/-- Processes the entries in order, uploading each pending one; returns
`none` as soon as any single upload fails. -/
def uploadAll (up : LocalFile → Option String) :
    List ImageEntry → Option (List ImageEntry)
  | [] => some []
  | e :: es =>
    if e.status = .pending then
      match attemptUpload up e with
      | none => none
      | some u =>
        match uploadAll up es with
        | none => none
        | some es' => some ({ e with status := .uploaded, url := some u } :: es')
    else
      match uploadAll up es with
      | none => none
      | some es' => some (e :: es')

/-- Marks a pending entry as failed (the batch-failure bookkeeping). -/
def markFailed (e : ImageEntry) : ImageEntry :=
  if e.status = .pending then { e with status := .failed } else e

/-- What `beginUpload` surfaces to its caller: the resulting entry list
and, on success only, the ordered URLs. -/
structure UploadOutcome where
  entries : List ImageEntry
  urls : Option (List String)

/-- Modelled from the spec: `beginUpload` resolves with every pending
entry uploaded and the ordered URLs, or reports the whole batch as failed
with no URLs. -/
def beginUpload (up : LocalFile → Option String) (l : List ImageEntry) :
    UploadOutcome :=
  match uploadAll up l with
  | none => { entries := l.map markFailed, urls := none }
  | some l' => { entries := l', urls := some (getImageUrls l') }

/-! ## The Product Fetcher (`use-fetch-product-by-id.ts`) -/

/-- A JavaScript value as far as the fetcher is concerned. -/
inductive Js where
  | undef
  | nullv
  | boolv (b : Bool)
  | numv (n : Int)
  | strv (s : String)
  | objv (fields : List (String × Js))

/-- JavaScript truthiness: `undefined`, `null`, `false`, `0` and `""` are
falsy; every object is truthy. -/
def jsFalsy : Js → Bool
  | .undef => true
  | .nullv => true
  | .boolv b => !b
  | .numv n => n == 0
  | .strv s => s == ""
  | .objv _ => false

/-- What the underlying `fetcher(url)` call can resolve with: a `Response`
object (whose body either parses as JSON or does not), or any plain
value. -/
inductive ResValue where
  | response (body : Option Js)
  | plain (v : Js)

/-- Truthiness of the resolved value; a `Response` object is always
truthy. -/
def resFalsy : ResValue → Bool
  | .response _ => false
  | .plain v => jsFalsy v

/-- The underlying request either rejects or resolves with a value. -/
inductive FetcherOutcome where
  | reject
  | resolve (r : ResValue)

/-- The failure modes of the fetch: a network-level error (the request
rejected, or `throw new Error("No response from server")` on a falsy
response) or a JSON parse failure from `res.json()`. -/
inductive FetchFail where
  | network (msg : String)
  | parse

/-- `jsonFetcher` of `use-fetch-product-by-id.ts`: await the fetcher,
throw on a falsy result, parse the body when the result is a `Response`,
and otherwise return the resolved value as-is. No shape validation is
performed anywhere (`json as ListingDetailsResponse<T>` is a bare type
assertion). -/
def jsonFetcher : FetcherOutcome → Except FetchFail Js
  | .reject => .error (.network "fetch rejected")
  | .resolve r =>
    if resFalsy r then .error (.network "No response from server")
    else
      match r with
      | .response none => .error .parse
      | .response (some j) => .ok j
      | .plain v => .ok v

/-- Whether a value has the envelope shape `{data, message?, success?}`:
an object carrying a `data` field. -/
def isEnvelope : Js → Bool
  | .objv fields => fields.any (fun p => p.1 == "data")
  | _ => false

/-! ## Fetch triggering (`useFetchProductById`)

The hook computes an SWR key (`null` when disabled or the id is empty)
and additionally calls the bound `refresh()` from a `useEffect` whenever
`(productId, enabled)` change and pass the same guard. The SWR layer
itself is an external library; it is modelled after its documented
behavior: a revalidation request is issued when the key changes to a
non-null value, and each `mutate()` call issues one revalidation when the
key is non-null. Triggers are counted without any library-internal
deduplication. -/

/-- The `(productId, enabled)` inputs of the hook. -/
structure HookInput where
  productId : String
  enabled : Bool
  deriving DecidableEq, Repr

/-- The SWR key: `enabled && productId ? url : null` (an empty id is
falsy). -/
def apiUrl (inp : HookInput) : Option String :=
  if inp.enabled = true ∧ inp.productId ≠ "" then
    some ("/api/listing-details?id=" ++ inp.productId)
  else none

/-- SWR issues one revalidation when its key changes to a non-null
value. -/
def keyChangeTriggers (prevKey newKey : Option String) : Nat :=
  if newKey ≠ prevKey ∧ newKey.isSome = true then 1 else 0

/-- The `useEffect` body: `if (productId && enabled) void refresh()`,
run once per change of its dependencies. -/
def effectRefreshCalls (inp : HookInput) : Nat :=
  if inp.productId ≠ "" ∧ inp.enabled = true then 1 else 0

/-- A `mutate()` call issues one revalidation per call when the key is
non-null, none otherwise. -/
def mutateTriggers (key : Option String) (calls : Nat) : Nat :=
  if key.isSome = true then calls else 0

/-- Revalidation requests issued to the fetch layer when the hook inputs
change from `prev` to `next`: the key-change revalidation plus the
explicit refresh from the effect. -/
def fetchTriggersOnChange (prev next : HookInput) : Nat :=
  keyChangeTriggers (apiUrl prev) (apiUrl next) +
    mutateTriggers (apiUrl next) (effectRefreshCalls next)

/-! ## The fetched listing and the Form State Controller -/

/-- The listing record the modal edits (`ProductEditData`-shaped source
entity). -/
structure Listing where
  title : Option String
  name : Option String
  description : Option String
  price : Option String
  location : Option String
  category : Option String
  subCategory : Option String
  childCategory : Option String
  contactNumber : Option String
  negotiable : NegotiableVal
  attributes : Option (List (String × String))
  deriving DecidableEq, Repr

/-- Modelled from the spec: `initialize(listing) -> fields` of the Form
State Controller (the `use-product-form` hook is not in the source tree)
seeds every editable field from the fetched listing, defaulting to
absent rather than throwing when the listing lacks a field. -/
def seedForm (l : Listing) : FormData where
  title := l.title
  name := l.name
  description := l.description
  price := l.price
  location := l.location
  category := l.category
  subCategory := l.subCategory
  childCategory := l.childCategory
  contactNumber := l.contactNumber
  negotiable := l.negotiable
  attributes := l.attributes

/-- The rendered value of the title input:
`formData.title || formData.name || ""` (modal source, the Product Name
field). -/
def titleFieldValue (fd : FormData) : String :=
  orEmpty (jsOr fd.title fd.name)

/-! ## The modal's render dispatch -/

/-- What the modal renders. -/
inductive ModalView where
  | hiddenView
  | loadingView
  | errorView (hasLoadError : Bool)
  | formView (fd : FormData)
  deriving DecidableEq, Repr

/-- The props and fetch results the render path reads. -/
structure RenderInput where
  isOpen : Bool
  externalLoading : Option Bool
  isLoadingProduct : Bool
  externalError : Option String
  errorProduct : Option String
  newProductData : Option Listing
  product : Option Listing
  deriving DecidableEq, Repr

/-- The modal's render dispatch: `if (!isOpen) return null`, then the
loading gate (`externalLoading ?? isLoadingProduct`), then the no-data
panel when `newProductData || product` is absent (with the message
depending on `externalError ?? errorProduct`), and otherwise the editable
form seeded from the resolved listing. -/
def render (inp : RenderInput) : ModalView :=
  if inp.isOpen = false then .hiddenView
  else if inp.externalLoading.getD inp.isLoadingProduct = true then .loadingView
  else
    match inp.newProductData.or inp.product with
    | none => .errorView (inp.externalError.or inp.errorProduct).isSome
    | some p => .formView (seedForm p)

/-- A legacy listing: no `title`, only the old `name` attribute. -/
def sampleListing : Listing where
  title := none
  name := some "Chair"
  description := some "wooden chair"
  price := some "5"
  location := some "Accra"
  category := none
  subCategory := none
  childCategory := none
  contactNumber := none
  negotiable := .undef
  attributes := none

/-- Render inputs for a failed fetch with a fallback product prop. -/
def sampleFallbackInput : RenderInput where
  isOpen := true
  externalLoading := none
  isLoadingProduct := false
  externalError := some "network down"
  errorProduct := none
  newProductData := none
  product := some sampleListing

theorem renumberFrom_map_position (i : Nat) (l : List ImageEntry) :
    (renumberFrom i l).map (fun e => e.position) = List.range' i l.length := by
  induction l generalizing i with
  | nil => rfl
  | cons e es ih => simp [renumberFrom, List.range'_succ, ih]

theorem renumberFrom_length (i : Nat) (l : List ImageEntry) :
    (renumberFrom i l).length = l.length := by
  induction l generalizing i with
  | nil => rfl
  | cons e es ih => simp [renumberFrom, ih]

theorem valid_renumber (l : List ImageEntry) (h : l.length ≤ maxImages) :
    ValidImages (renumber l) := by
  refine ⟨?_, ?_⟩
  · rw [renumber, renumberFrom_map_position, renumberFrom_length,
      List.range_eq_range']
  · rw [renumber, renumberFrom_length]; exact h

theorem valid_addOneFile (l : List ImageEntry) (f : LocalFile)
    (h : ValidImages l) : ValidImages (addOneFile l f) := by
  unfold addOneFile
  split
  · exact h
  · next hcond =>
    push_neg at hcond
    refine ⟨?_, ?_⟩
    · simp [List.range_succ, h.1]
    · simpa using hcond.2

theorem valid_addFiles (files : List LocalFile) (l : List ImageEntry)
    (h : ValidImages l) : ValidImages (addFiles files l) := by
  unfold addFiles
  induction files generalizing l with
  | nil => exact h
  | cons f fs ih => exact ih _ (valid_addOneFile l f h)

theorem valid_removeEntry (eid : Nat) (l : List ImageEntry)
    (h : ValidImages l) : ValidImages (removeEntry eid l) := by
  apply valid_renumber
  exact le_trans (List.length_eraseP_le l) h.2

theorem valid_setMain (eid : Nat) (l : List ImageEntry)
    (h : ValidImages l) : ValidImages (setMain eid l) := by
  unfold setMain
  cases hf : l.find? (fun e => e.eid == eid) with
  | none => exact h
  | some e =>
    apply valid_renumber
    have hm := List.mem_of_find?_eq_some hf
    have hp := List.find?_some hf
    have := List.length_eraseP_add_one (p := fun x => x.eid == eid) hm hp
    simpa [List.length_cons, this] using h.2

theorem valid_reorderEntry (srcId target : Nat) (l : List ImageEntry)
    (h : ValidImages l) : ValidImages (reorderEntry srcId target l) := by
  unfold reorderEntry
  cases hf : l.find? (fun e => e.eid == srcId) with
  | none => exact h
  | some e =>
    apply valid_renumber
    have hm := List.mem_of_find?_eq_some hf
    have hp := List.find?_some hf
    have hlen := List.length_eraseP_add_one (p := fun x => x.eid == srcId) hm hp
    have hpos : 0 < l.length := List.length_pos.mpr (List.ne_nil_of_mem hm)
    have h2 : l.length ≤ maxImages := h.2
    have hle : min target (l.length - 1) ≤ (l.eraseP (fun x => x.eid == srcId)).length := by
      omega
    rw [List.length_insertIdx _ _ hle]
    omega

theorem valid_applyOp (op : ImageOp) (l : List ImageEntry)
    (h : ValidImages l) : ValidImages (applyOp op l) := by
  cases op with
  | addFiles files => exact valid_addFiles files l h
  | remove eid => exact valid_removeEntry eid l h
  | setMain eid => exact valid_setMain eid l h
  | reorder srcId target => exact valid_reorderEntry srcId target l h

/-- Claim C2: for every sequence of Image Manager operations
(`addFiles` / `remove` / `reorder` / `setMain`), starting from any valid
initial list, the resulting image list has unique, gap-free, zero-based
positions and its length never exceeds `maxImages` (10). -/
theorem image_ops_preserve_invariant (ops : List ImageOp) (l : List ImageEntry)
    (h : ValidImages l) : ValidImages (applyOps ops l) := by
  induction ops generalizing l with
  | nil => exact h
  | cons op rest ih => exact ih (applyOp op l) (valid_applyOp op l h)

theorem image_ops_preserve_invariant_witness :
    ValidImages ([] : List ImageEntry) ∧
    ValidImages (applyOps
      [ImageOp.addFiles [{ fname := "a.jpg", sizeMB := 1 },
          { fname := "b.jpg", sizeMB := 2 }, { fname := "c.jpg", sizeMB := 9 }],
        ImageOp.setMain 1, ImageOp.reorder 0 1, ImageOp.remove 1] []) :=
  ⟨⟨rfl, by decide⟩,
    image_ops_preserve_invariant _ [] ⟨rfl, by decide⟩⟩

theorem map_markFailed_statuses (l : List ImageEntry) :
    (l.map markFailed).map (fun e => e.status) =
      l.map (fun e =>
        if e.status = ImageStatus.pending then ImageStatus.failed
        else e.status) := by
  induction l with
  | nil => rfl
  | cons e es ih =>
    by_cases hp : e.status = ImageStatus.pending <;>
      simp [markFailed, hp, ih]

theorem uploadAll_statuses (up : LocalFile → Option String)
    (l l' : List ImageEntry) (h : uploadAll up l = some l') :
    l'.map (fun e => e.status) =
      l.map (fun e =>
        if e.status = ImageStatus.pending then ImageStatus.uploaded
        else e.status) := by
  induction l generalizing l' with
  | nil =>
    simp [uploadAll] at h
    subst h
    rfl
  | cons e es ih =>
    unfold uploadAll at h
    by_cases hp : e.status = ImageStatus.pending
    · rw [if_pos hp] at h
      cases ha : attemptUpload up e with
      | none => rw [ha] at h; exact Option.noConfusion h
      | some u =>
        rw [ha] at h
        cases hr : uploadAll up es with
        | none => rw [hr] at h; exact Option.noConfusion h
        | some es' =>
          rw [hr] at h
          injection h with h2
          subst h2
          simp [hp, ih es' hr]
    · rw [if_neg hp] at h
      cases hr : uploadAll up es with
      | none => rw [hr] at h; exact Option.noConfusion h
      | some es' =>
        rw [hr] at h
        injection h with h2
        subst h2
        simp [hp, ih es' hr]

/-- Claim C6: `beginUpload` is atomic over the pending entries: when URLs
are returned, every previously pending entry ends with status `uploaded`
and the returned list is exactly the ordered URL read of the resulting
entries; when no URLs are returned, the whole batch is reported failed
(every previously pending entry ends `failed`, none becomes `uploaded`)
and no partial success is surfaced. -/
theorem beginUpload_atomic (up : LocalFile → Option String)
    (l : List ImageEntry) :
    (∀ us, (beginUpload up l).urls = some us →
        us = getImageUrls (beginUpload up l).entries ∧
        (beginUpload up l).entries.map (fun e => e.status) =
          l.map (fun e =>
            if e.status = ImageStatus.pending then ImageStatus.uploaded
            else e.status)) ∧
    ((beginUpload up l).urls = none →
        (beginUpload up l).entries.map (fun e => e.status) =
          l.map (fun e =>
            if e.status = ImageStatus.pending then ImageStatus.failed
            else e.status)) := by
  unfold beginUpload
  cases hr : uploadAll up l with
  | none =>
    refine ⟨?_, ?_⟩
    · intro us h
      exact Option.noConfusion h
    · intro _
      exact map_markFailed_statuses l
  | some l' =>
    refine ⟨?_, ?_⟩
    · intro us h
      injection h with h2
      subst h2
      exact ⟨rfl, uploadAll_statuses up l l' hr⟩
    · intro h
      exact Option.noConfusion h

theorem beginUpload_atomic_witness :
    ((beginUpload (fun _ => some "b.jpg")
        [sampleExistingEntry, samplePendingEntry]).entries.map
          (fun e => e.status) =
      [ImageStatus.uploaded, ImageStatus.uploaded]) ∧
    ((beginUpload (fun _ => none)
        [sampleExistingEntry, samplePendingEntry]).entries.map
          (fun e => e.status) =
      [ImageStatus.uploaded, ImageStatus.failed]) :=
  ⟨(((beginUpload_atomic (fun _ => some "b.jpg")
      [sampleExistingEntry, samplePendingEntry]).1
        ["a.jpg", "b.jpg"] rfl).2).trans (by decide),
    ((beginUpload_atomic (fun _ => none)
      [sampleExistingEntry, samplePendingEntry]).2 rfl).trans (by decide)⟩

/-- Claim C1, as stated, is false on the code: the submit flow of the
modal constructs and sends the update request without any upload phase
having completed before it. Concretely, from a ready state holding a
pending local image, `handleSubmit` emits a `requestSent` event with no
preceding `uploadCompleted` event. -/
theorem submit_upload_ordering_cex :
    uploadBeforeRequest false
      (handleSubmit "p1" sampleReadyState (.ok ())).2 = false := by
  rfl

/-- Claim C1 (amended): the submit flow contains no upload phase at all —
`handleSubmit` never emits an upload event; when the form is present and
no submission is in flight, the update request is built directly from the
current image URL list, and that list only ever contains URLs already
recorded on entries, so the request never references a local file without
a recorded URL. -/
theorem submit_flow_no_upload_phase (pid : String) (st : ModalState)
    (o : Except Unit Unit) (fd : FormData) (imgs : List ImageEntry)
    (ss : Bool) :
    ((handleSubmit pid st o).2.all (fun e => !isUploadEvent e)) = true ∧
    ((handleSubmit pid
        { isSubmitting := false, showSuccess := ss,
          formData := some fd, images := imgs } o).2.head? =
      some (.requestSent (buildReqBody pid fd (getImageUrls imgs)))) ∧
    (∀ u, u ∈ getImageUrls imgs → ∃ e, e ∈ imgs ∧ e.url = some u) := by
  refine ⟨?_, ?_, ?_⟩
  · unfold handleSubmit
    cases st.formData with
    | none => rfl
    | some fd' =>
      by_cases hs : st.isSubmitting = true
      · simp [hs]
      · cases o <;> simp [hs, isUploadEvent]
  · unfold handleSubmit
    cases o <;> rfl
  · intro u hu
    unfold getImageUrls at hu
    rw [List.mem_filterMap] at hu
    obtain ⟨e, he, hue⟩ := hu
    exact ⟨e, he, hue⟩

theorem submit_flow_no_upload_phase_witness :
    ((handleSubmit "p1" sampleReadyState (.ok ())).2.all
      (fun e => !isUploadEvent e)) = true :=
  (submit_flow_no_upload_phase "p1" sampleReadyState (.ok ())
    sampleForm [] false).1

/-- Claim C3: when the request is assembled, a boolean `negotiable` form
value passes through unchanged, the string `"true"` yields `true`, and
every other string yields `false`. -/
theorem negotiable_coercion (pid : String) (fd : FormData)
    (urls : List String) (b : Bool) (s : String) :
    (buildReqBody pid { fd with negotiable := .boolv b } urls).negotiable
        = b ∧
    (buildReqBody pid { fd with negotiable := .strv "true" } urls).negotiable
        = true ∧
    (s ≠ "true" →
      (buildReqBody pid { fd with negotiable := .strv s } urls).negotiable
        = false) := by
  refine ⟨rfl, rfl, ?_⟩
  intro h
  simp [buildReqBody, coerceNegotiable, h]

theorem negotiable_coercion_witness :
    ("false" : String) ≠ "true" ∧
    (buildReqBody "p1" { sampleForm with negotiable := .strv "false" }
      ["a.jpg"]).negotiable = false :=
  ⟨by decide,
    (negotiable_coercion "p1" sampleForm ["a.jpg"] true "false").2.2
      (by decide)⟩

/-- Claim C4: invoking submit while `isSubmitting` is true is a no-op —
the state is unchanged and no event (in particular no update request) is
produced. -/
theorem submit_reentrant_noop (pid : String) (st : ModalState)
    (o : Except Unit Unit) (h : st.isSubmitting = true) :
    handleSubmit pid st o = (st, []) := by
  unfold handleSubmit
  cases st.formData <;> simp [h]

theorem submit_reentrant_noop_witness :
    ({ sampleReadyState with isSubmitting := true } : ModalState).isSubmitting
        = true ∧
    handleSubmit "p1" { sampleReadyState with isSubmitting := true } (.ok ())
        = ({ sampleReadyState with isSubmitting := true }, []) :=
  ⟨rfl, submit_reentrant_noop "p1" _ (.ok ()) rfl⟩

/-- Claim C5: when the update collaborator rejects, the submit flow
surfaces the error toast and ends with `isSubmitting` reset and the form
data, image list and success flag exactly as before — and the trace shows
no success toast and no scheduled close callback. -/
theorem update_failure_preserves_state (pid : String) (fd : FormData)
    (imgs : List ImageEntry) (ss : Bool) :
    handleSubmit pid
        { isSubmitting := false, showSuccess := ss,
          formData := some fd, images := imgs } (.error ()) =
      ({ isSubmitting := false, showSuccess := ss,
          formData := some fd, images := imgs },
        [.requestSent (buildReqBody pid fd (getImageUrls imgs)),
          .errorToastShown]) := by
  rfl

/-- Claim C7: when a listing lacks `title`, the form's title field
renders the legacy `name` attribute and the assembled request's title
uses the same fallback. -/
theorem title_legacy_fallback (l : Listing) (n pid : String)
    (urls : List String) (h1 : l.title = none) (h2 : l.name = some n) :
    titleFieldValue (seedForm l) = n ∧
    (buildReqBody pid (seedForm l) urls).title = some n := by
  constructor
  · simp [titleFieldValue, seedForm, jsOr, orEmpty, h1, h2]
  · simp [buildReqBody, seedForm, jsOr, h1, h2]

theorem title_legacy_fallback_witness :
    sampleListing.title = none ∧ sampleListing.name = some "Chair" ∧
    titleFieldValue (seedForm sampleListing) = "Chair" ∧
    (buildReqBody "p1" (seedForm sampleListing) []).title = some "Chair" :=
  ⟨rfl, rfl,
    (title_legacy_fallback sampleListing "Chair" "p1" [] rfl rfl).1,
    (title_legacy_fallback sampleListing "Chair" "p1" [] rfl rfl).2⟩

/-- Claim C8, as stated, is false on the code: `jsonFetcher` performs no
envelope-shape validation, so it can succeed with a value outside the
`{data, message?, success?}` shape. Concretely, a truthy `Response` whose
body parses to the bare number `5` makes the fetch succeed with `5`,
which is not an envelope, and no `ParseError` is raised. -/
theorem jsonFetcher_envelope_cex :
    jsonFetcher (.resolve (.response (some (.numv 5)))) = .ok (.numv 5) ∧
    isEnvelope (.numv 5) = false :=
  ⟨rfl, rfl⟩

/-- Claim C8 (amended): the fetch fails with a network-level error exactly
when the underlying request rejects or resolves to a falsy value; it
fails with a parse error exactly when the resolved `Response` body is not
valid JSON; and any parsed body or truthy non-`Response` value is
returned as-is, with no envelope-shape validation. -/
theorem jsonFetcher_amended (o : FetcherOutcome) :
    ((∃ m, jsonFetcher o = .error (.network m)) ↔
      (o = .reject ∨ ∃ r, o = .resolve r ∧ resFalsy r = true)) ∧
    (jsonFetcher o = .error .parse ↔ o = .resolve (.response none)) ∧
    (∀ j, o = .resolve (.response (some j)) → jsonFetcher o = .ok j) ∧
    (∀ v, o = .resolve (.plain v) → jsFalsy v = false →
      jsonFetcher o = .ok v) := by
  cases o with
  | reject => simp [jsonFetcher]
  | resolve r =>
    cases r with
    | response body => cases body <;> simp [jsonFetcher, resFalsy]
    | plain v =>
      by_cases hf : jsFalsy v = true <;>
        simp [jsonFetcher, resFalsy, hf]

theorem jsonFetcher_amended_witness :
    jsonFetcher (.resolve (.plain (.strv "hello"))) = .ok (.strv "hello") :=
  (jsonFetcher_amended (.resolve (.plain (.strv "hello")))).2.2.2
    (.strv "hello") rfl rfl

theorem string_append_cancel_left (p s t : String) (h : p ++ s = p ++ t) :
    s = t := by
  have hd : (p ++ s).data = (p ++ t).data := by rw [h]
  simp only [String.data_append] at hd
  have h2 := List.append_cancel_left hd
  cases s
  cases t
  simp only at h2
  simp [h2]

/-- Claim C9, as stated, is false on the code: a change of the identifier
to a non-empty enabled value issues two revalidation triggers, not one —
the SWR key change issues one, and the hook's `useEffect` issues a second
through the bound `refresh()`. Concretely, changing the id from `""` to
`"p1"` with fetching enabled yields two triggers. -/
theorem fetch_exactly_one_cex :
    fetchTriggersOnChange { productId := "", enabled := true }
        { productId := "p1", enabled := true } = 2 ∧
    ((fetchTriggersOnChange { productId := "", enabled := true }
        { productId := "p1", enabled := true } == 1) = false) := by
  refine ⟨by decide, by decide⟩

/-- Claim C9 (amended): the hook issues no request at all when the
identifier is empty or fetching is disabled, and each change of the
identifier to a non-empty enabled value issues exactly two revalidation
triggers to the fetch layer (the key-change revalidation plus the
explicit refresh effect); any further deduplication happens inside the
external caching library, not in this code. -/
theorem fetch_triggers_amended (prev next : HookInput) :
    ((next.enabled = false ∨ next.productId = "") →
      fetchTriggersOnChange prev next = 0) ∧
    (next.enabled = true → next.productId ≠ "" →
      prev.productId ≠ next.productId →
      fetchTriggersOnChange prev next = 2) := by
  constructor
  · intro h
    have hk : apiUrl next = none := by
      unfold apiUrl
      rw [if_neg]
      intro hc
      rcases h with h | h
      · rw [h] at hc; exact Bool.false_ne_true hc.1
      · exact hc.2 h
    unfold fetchTriggersOnChange keyChangeTriggers mutateTriggers
    rw [hk]
    simp
  · intro he hp hne
    have hknext : apiUrl next =
        some ("/api/listing-details?id=" ++ next.productId) := by
      unfold apiUrl
      rw [if_pos ⟨he, hp⟩]
    have hkne : apiUrl prev ≠ apiUrl next := by
      unfold apiUrl
      by_cases hprev : prev.enabled = true ∧ prev.productId ≠ ""
      · rw [if_pos hprev, if_pos ⟨he, hp⟩]
        intro hc
        injection hc with h2
        exact hne (string_append_cancel_left _ _ _ h2)
      · rw [if_neg hprev, if_pos ⟨he, hp⟩]
        intro hc
        exact Option.noConfusion hc
    have h1 : keyChangeTriggers (apiUrl prev) (apiUrl next) = 1 := by
      unfold keyChangeTriggers
      rw [if_pos ⟨Ne.symm hkne, by rw [hknext]; rfl⟩]
    have h2 : mutateTriggers (apiUrl next) (effectRefreshCalls next) = 1 := by
      unfold mutateTriggers effectRefreshCalls
      simp [hknext, hp, he]
    unfold fetchTriggersOnChange
    rw [h1, h2]

theorem fetch_triggers_amended_witness :
    fetchTriggersOnChange { productId := "p1", enabled := true }
        { productId := "p1", enabled := false } = 0 ∧
    fetchTriggersOnChange { productId := "", enabled := true }
        { productId := "p2", enabled := true } = 2 :=
  ⟨(fetch_triggers_amended _ _).1 (Or.inl rfl),
    (fetch_triggers_amended _ _).2 rfl (by decide) (by decide)⟩

/-- Claim C10: when the modal is open and not loading, a fetch result of
no data together with a supplied fallback product renders the editable
form seeded from that fallback; the error panel appears exactly when
neither the fetch nor the prop supplies a product, whether or not a fetch
error occurred (the error only selects the panel's message). -/
theorem fallback_product_render (inp : RenderInput)
    (hopen : inp.isOpen = true)
    (hload : inp.externalLoading.getD inp.isLoadingProduct = false) :
    (∀ p, inp.newProductData = none → inp.product = some p →
      render inp = .formView (seedForm p)) ∧
    (∀ b, render inp = .errorView b →
      inp.newProductData = none ∧ inp.product = none) ∧
    (inp.newProductData = none → inp.product = none →
      render inp = .errorView (inp.externalError.or inp.errorProduct).isSome)
    := by
  unfold render
  rw [hopen, hload]
  simp only [Bool.true_eq_false, if_false, Bool.false_eq_true]
  refine ⟨?_, ?_, ?_⟩
  · intro p h1 h2
    rw [h1, h2]
    rfl
  · intro b h
    cases hnd : inp.newProductData with
    | some q => rw [hnd] at h; simp [Option.or] at h
    | none =>
      cases hpr : inp.product with
      | some q => rw [hnd, hpr] at h; simp [Option.or] at h
      | none => exact ⟨rfl, rfl⟩
  · intro h1 h2
    rw [h1, h2]
    rfl

theorem fallback_product_render_witness :
    render sampleFallbackInput = .formView (seedForm sampleListing) :=
  (fallback_product_render sampleFallbackInput rfl rfl).1 sampleListing rfl rfl

end BisaMe
